import Mathlib

/-!
Verification development for the shadow-drive client repository excerpt.
The visible source consists of example scripts
(`py/examples/end_to_end.py`, `full.py`, `immutable.py`,
`simple_end_to_end.py`) and a test (`py/tests/client.py`); the client
core (`ShadowDriveClient`, `print_pubkey`, `sign_message`) is imported
from the `shadow_drive` package, which is not part of the excerpt.
Following the specification, the missing core is modelled here as an
explicit account-lifecycle state machine with a typed error taxonomy,
and the properties of the spec are proved about that model.
-/

namespace ShadowDrive

/-- Modelled from the spec: the §7 error taxonomy of the client core
(`shadow_drive` package, absent from the excerpt).  `AccountCreationFailed`
is the surfaced form of a ledger `Rejected` during account creation,
observed in the examples as the `ValueError` caught by the retry loop in
`end_to_end.py`. -/
inductive SdError where
  | InvalidKeyMaterial
  | InvalidParameters
  | Rejected
  | Timeout
  | CapacityExceeded
  | AccountClosed
  | PartialUploadFailure
  | AccountCreationFailed
  deriving DecidableEq

/-- Modelled from the spec: the §3/§4.5 account status component of the
state machine (`Requested → Pending → Active → Closed`; immutability is
the separate monotonic flag on `StorageAccount`). -/
inductive Status where
  | Requested
  | Pending
  | Active
  | Closed
  deriving DecidableEq

/-- Modelled from the spec: §3 `StorageAccount` record of the client core
(absent from the excerpt): display name, requested capacity in bytes,
consumed capacity, the one-way mutability flag, and lifecycle status. -/
structure StorageAccount where
  name : String
  capacity : Nat
  used : Nat
  immutable : Bool
  status : Status
  deriving DecidableEq

/-- Modelled from the spec: §6 ledger RPC boundary
`getStatus(signature) -> {Unconfirmed, Confirmed, Failed(reason)}`, folded
with §4.3 classification into the terminal outcome the LedgerClient
reports for one submission: confirmed, fatally rejected, or timed out. -/
inductive LedgerOutcome where
  | Confirmed
  | RejectedByLedger
  | TimedOut
  deriving DecidableEq

/-- Modelled from the spec: §4.5 `createAccount(name, sizeBytes)` of the
client core (absent from the excerpt).  Validates inputs structurally
(§4.2: name non-empty, size > 0, `InvalidParameters` otherwise), then
builds+signs+submits the create transaction; the ledger outcome is a
parameter since the ledger is an external boundary.  On `Confirmed` it
returns the Active account with the requested capacity; on `Rejected` it
fails with `AccountCreationFailed`; on timeout it fails with `Timeout`. -/
def create_account (name : String) (sizeBytes : Nat) (outcome : LedgerOutcome) :
    Except SdError StorageAccount :=
  if name = "" ∨ sizeBytes = 0 then .error .InvalidParameters
  else
    match outcome with
    | .Confirmed =>
        .ok { name := name, capacity := sizeBytes, used := 0,
              immutable := false, status := .Active }
    | .RejectedByLedger => .error .AccountCreationFailed
    | .TimedOut => .error .Timeout

/-- Modelled from the spec: §4.5 `addStorage(bytes)` of the client core
(absent from the excerpt).  Requires delta > 0 (§4.2) and state ∈
{Active, Immutable} — in this model, status `Active` with either value of
the `immutable` flag, as exercised by `immutable.py` calling
`add_storage` after `make_account_immutable`.  On a Closed account it
fails with `AccountClosed`; a confirmed resize grows the capacity. -/
def add_storage (a : StorageAccount) (deltaBytes : Nat) (outcome : LedgerOutcome) :
    Except SdError StorageAccount :=
  if deltaBytes = 0 then .error .InvalidParameters
  else if a.status = .Closed then .error .AccountClosed
  else if a.status ≠ .Active then .error .Rejected
  else
    match outcome with
    | .Confirmed => .ok { a with capacity := a.capacity + deltaBytes }
    | .RejectedByLedger => .error .Rejected
    | .TimedOut => .error .Timeout

/-- Modelled from the spec: §4.5 `reduceStorage(bytes)` of the client core
(absent from the excerpt).  Requires delta > 0 and state ∈ {Active} only:
capacity reduction on an immutable account is disallowed and fails as an
immutable-account violation, classified `Rejected` (§7). -/
def reduce_storage (a : StorageAccount) (deltaBytes : Nat) (outcome : LedgerOutcome) :
    Except SdError StorageAccount :=
  if deltaBytes = 0 then .error .InvalidParameters
  else if a.immutable then .error .Rejected
  else if a.status = .Closed then .error .AccountClosed
  else if a.status ≠ .Active then .error .Rejected
  else
    match outcome with
    | .Confirmed => .ok { a with capacity := a.capacity - deltaBytes }
    | .RejectedByLedger => .error .Rejected
    | .TimedOut => .error .Timeout

/-- Modelled from the spec: §4.5 / §8 `makeAccountImmutable(skipWarning)`
of the client core (absent from the excerpt).  When `skipWarning = false`
the call never mutates account state (the declined "dry warning" outcome
of `immutable.py`, a valid non-error result); when `skipWarning = true`
it executes immediately, setting the one-way `immutable` flag on an
Active account. -/
def make_account_immutable (a : StorageAccount) (skipWarning : Bool) :
    StorageAccount :=
  if skipWarning ∧ a.status = .Active then { a with immutable := true } else a

/-- Modelled from the spec: §3/§4.4 `FileRef`, a local file to upload:
path and size in bytes. -/
structure FileRef where
  path : String
  size : Nat
  deriving DecidableEq

/-- Modelled from the spec: §3 `FileHandle`, the client-side reference to
an uploaded object: remote identifier/URL and size. -/
structure FileHandle where
  url : String
  size : Nat
  deriving DecidableEq

/-- Modelled from the spec: the remote identifier of an uploaded file,
derived deterministically from the owning account identifier and the
file path (§3: identifiers are derived from owner identifier + name). -/
def handleOf (accountName : String) (f : FileRef) : FileHandle :=
  { url := accountName ++ "/" ++ f.path, size := f.size }

/-- Modelled from the spec: §5 per-account client-side state — the cached
storage account plus the file handles the transfer client reports for
it. -/
structure ClientState where
  account : StorageAccount
  files : List FileHandle
  deriving DecidableEq

/-- Total size in bytes of a batch of local files. -/
def totalSize (fs : List FileRef) : Nat := (fs.map FileRef.size).sum

/-- Modelled from the spec: §4.4 outcome of a batch upload — either every
file registered, or a per-file result list with mixed outcomes
(`PartialUploadFailure`), or a typed failure that applied nothing. -/
inductive UploadOutcome where
  | allOk (results : List (FileRef × FileHandle))
  | mixed (results : List (FileRef × Option FileHandle))
  | failed (e : SdError)
  deriving DecidableEq

/-- Modelled from the spec: §4.4/§4.5 `uploadFiles(paths)` of the client
core (absent from the excerpt).  Requires the account Active (Closed
fails with `AccountClosed`); a batch that would exceed remaining capacity
fails with `CapacityExceeded` without applying any part of the batch.
Otherwise each file either fully registers or is reported individually
failed — `serverOk` is the per-file success of the external storage
endpoint — and the caller receives a per-file result list, with mixed
outcomes surfaced as `PartialUploadFailure` via the `mixed`
constructor. -/
def upload_files (st : ClientState) (fs : List FileRef)
    (serverOk : FileRef → Bool) : UploadOutcome × ClientState :=
  if st.account.status = .Closed then (.failed .AccountClosed, st)
  else if st.account.status ≠ .Active then (.failed .Rejected, st)
  else if st.account.capacity < st.account.used + totalSize fs then
    (.failed .CapacityExceeded, st)
  else
    let okFiles := fs.filter serverOk
    let st1 : ClientState :=
      { st with
        account := { st.account with used := st.account.used + totalSize okFiles },
        files := st.files ++ okFiles.map (handleOf st.account.name) }
    if fs.all serverOk then
      (.allOk (fs.map fun f => (f, handleOf st.account.name f)), st1)
    else
      (.mixed (fs.map fun f =>
        (f, if serverOk f then some (handleOf st.account.name f) else none)), st1)

/-- Modelled from the spec: §4.5 `listFiles()` of the client core (absent
from the excerpt): delegates to the transfer client for the account;
refused with `AccountClosed` on a Closed account. -/
def list_files (st : ClientState) : Except SdError (List FileHandle) :=
  if st.account.status = .Closed then .error .AccountClosed
  else if st.account.status ≠ .Active then .error .Rejected
  else .ok st.files

/-- Modelled from the spec: §4.5 `deleteFiles(handles)` of the client
core (absent from the excerpt): removes the given handles from the
account's file set; refused with `AccountClosed` on a Closed account. -/
def delete_files (st : ClientState) (hs : List FileHandle) :
    Except SdError Unit × ClientState :=
  if st.account.status = .Closed then (.error .AccountClosed, st)
  else if st.account.status ≠ .Active then (.error .Rejected, st)
  else (.ok (), { st with files := st.files.filter (fun h => decide (h ∉ hs)) })

/-- Modelled from the spec: §4.5 `getFile(handle)` of the client core
(absent from the excerpt): a read-only metadata fetch, refused on a
Closed account. -/
def get_file (st : ClientState) (h : FileHandle) : Except SdError FileHandle :=
  if st.account.status = .Closed then .error .AccountClosed
  else if st.account.status ≠ .Active then .error .Rejected
  else if h ∈ st.files then .ok h else .error .InvalidParameters

/-- Modelled from the spec: §4.5 `closeAccount` of the client core
(absent from the excerpt).  An immutable account has irreversibly
forfeited the ability to be closed (glossary), surfaced as `Rejected`;
otherwise a confirmed close transitions the account to `Closed`, under
which all further file operations are refused. -/
def close_account (st : ClientState) (outcome : LedgerOutcome) :
    Except SdError Unit × ClientState :=
  if st.account.immutable then (.error .Rejected, st)
  else if st.account.status = .Closed then (.error .AccountClosed, st)
  else if st.account.status ≠ .Active then (.error .Rejected, st)
  else
    match outcome with
    | .Confirmed => (.ok (), { st with account := { st.account with status := .Closed } })
    | .RejectedByLedger => (.error .Rejected, st)
    | .TimedOut => (.error .Timeout, st)

/-- Modelled from the spec: the §6 public client surface as operations on
the per-account state, used to state monotonicity and frame properties
quantified over every operation. -/
inductive Op where
  | addStorageOp (delta : Nat) (outcome : LedgerOutcome)
  | reduceStorageOp (delta : Nat) (outcome : LedgerOutcome)
  | makeImmutableOp (skipWarning : Bool)
  | uploadOp (fs : List FileRef) (serverOk : FileRef → Bool)
  | deleteOp (hs : List FileHandle)
  | listOp
  | getOp (h : FileHandle)
  | closeOp (outcome : LedgerOutcome)

/-- Modelled from the spec: one public call applied to the per-account
client state; a failed call leaves the state unchanged. -/
def step (st : ClientState) : Op → ClientState
  | .addStorageOp d oc =>
      match add_storage st.account d oc with
      | .ok a => { st with account := a }
      | .error _ => st
  | .reduceStorageOp d oc =>
      match reduce_storage st.account d oc with
      | .ok a => { st with account := a }
      | .error _ => st
  | .makeImmutableOp sw => { st with account := make_account_immutable st.account sw }
  | .uploadOp fs serverOk => (upload_files st fs serverOk).2
  | .deleteOp hs => (delete_files st hs).2
  | .listOp => st
  | .getOp _ => st
  | .closeOp oc => (close_account st oc).2

/-- Modelled from the spec: §3 `Keypair` — opaque secret material (byte
sequence) from which the public identifier is derived.  Immutable once
loaded. -/
structure Keypair where
  secret : List Nat
  deriving DecidableEq

/-- Modelled from the spec: the deterministic derivation of the public
identifier from the secret key bytes.  The concrete scheme (ed25519 via
the external `solders` library) is opaque to the spec; the model keeps
only its shape: a pure byte-level function of the secret. -/
def pubkeyOf (kp : Keypair) : List Nat :=
  kp.secret.map (fun b => (b * 7 + 3) % 256)

/-- Modelled from the spec: §6 utility `publicIdentifierOf(keypair)`. -/
def publicIdentifierOf (kp : Keypair) : List Nat := pubkeyOf kp

/-- Modelled from the spec: the signature bytes the scheme produces for a
given signer identity and payload.  A deterministic scheme admits exactly
one valid signature per (identity, payload) pair, which is what
verification checks; the concrete mixing stands in for the opaque
scheme. -/
def signWithId (pk msg : List Nat) : List Nat :=
  (pk ++ msg).map (fun b => (b * 31 + 7) % 256)

/-- Modelled from the spec: §4.1/§6 `signRawMessage(keypair, msg)`.  The
`env` argument models the ambient state of an invocation (time, process
randomness); the spec requires the signature not to depend on it — no
randomized nonces beyond what the scheme itself injects — so the model
ignores it. -/
def signRawMessage (kp : Keypair) (msg : List Nat) (env : Nat) : List Nat :=
  let _ := env
  signWithId (pubkeyOf kp) msg

/-- Modelled from the spec: signature verification at the transfer
endpoint (§4.4): a signature is accepted for a public identifier and
payload exactly when it is the one the deterministic scheme produces for
them. -/
def verifySignature (pk msg sig : List Nat) : Bool :=
  decide (sig = signWithId pk msg)

/-- Hex digit for byte-string rendering. -/
def hexChar (n : Nat) : Char :=
  if n < 10 then Char.ofNat (48 + n) else Char.ofNat (87 + n)

/-- Rendering of a byte sequence as a string, modelling the `str(...)`
form the python test compares (`py/tests/client.py`). -/
def encodeBytes (bs : List Nat) : String :=
  String.mk ((bs.map fun b => [hexChar (b / 16), hexChar (b % 16)]).flatten)

/-- Modelled from the spec: the inner keypair handling of the external
`solders` library — `keypair.pubkey()` returning the derived public
identifier bytes. -/
def Keypair.pubkey (kp : Keypair) : List Nat := pubkeyOf kp

/-- Modelled from the spec: the inner `keypair.sign_message(bytes)` of
the external `solders` library, taking payload bytes directly. -/
def Keypair.sign_message (kp : Keypair) (msg : List Nat) : List Nat :=
  signWithId (pubkeyOf kp) msg

/-- Modelled from the spec: the `print_pubkey` utility of the
`shadow_drive` package (absent from the excerpt); per the test
`test_inner_keypair_handling` it renders the keypair's public identifier
as a string. -/
def print_pubkey (kp : Keypair) : String := encodeBytes (Keypair.pubkey kp)

/-- Modelled from the spec: the `sign_message` utility of the
`shadow_drive` package (absent from the excerpt); per the test it takes
the message as a python list of ints, coerces it to bytes (reduction mod
256), signs with the inner keypair and renders the signature as a
string. -/
def sign_message (kp : Keypair) (msgInts : List Nat) : String :=
  encodeBytes (Keypair.sign_message kp (msgInts.map (· % 256)))

/-- Modelled from the spec: §3 `Transaction` payload kinds — the
operation a signed transaction applies to the on-chain account. -/
inductive TxEffect where
  | createAcc (name : String) (size : Nat)
  | resizeAdd (delta : Nat)
  | resizeReduce (delta : Nat)
  | makeImm
  | closeAcc
  deriving DecidableEq

/-- Modelled from the spec: a signed transaction — frozen payload plus
the signature that identifies it for deduplication (§4.3). -/
structure SignedTx where
  sig : List Nat
  effect : TxEffect
  deriving DecidableEq

/-- Modelled from the spec: the ledger-side state the LedgerClient
contract is stated against — the set of confirmed transaction signatures
and the on-chain account state they have produced. -/
structure LedgerState where
  confirmedSigs : List (List Nat)
  account : StorageAccount
  deriving DecidableEq

/-- Modelled from the spec: the account-state effect of one confirmed
transaction. -/
def applyEffect : TxEffect → StorageAccount → StorageAccount
  | .createAcc n s, _ =>
      { name := n, capacity := s, used := 0, immutable := false, status := .Active }
  | .resizeAdd d, a => { a with capacity := a.capacity + d }
  | .resizeReduce d, a => { a with capacity := a.capacity - d }
  | .makeImm, a => { a with immutable := true }
  | .closeAcc, a => { a with status := .Closed }

/-- Modelled from the spec: §4.3 `submit(signedTx)` of the LedgerClient
(absent from the excerpt).  A transaction whose signature is already
confirmed is deduplicated: the receipt is returned without re-applying
the account-state effect.  Otherwise the broadcast outcome (an external
boundary, passed as a parameter) decides: on confirmation the effect is
applied once and the signature recorded; on rejection or timeout the
ledger state is unchanged. -/
def submit (L : LedgerState) (tx : SignedTx) (outcome : LedgerOutcome) :
    LedgerOutcome × LedgerState :=
  if tx.sig ∈ L.confirmedSigs then (.Confirmed, L)
  else
    match outcome with
    | .Confirmed =>
        (.Confirmed,
         { confirmedSigs := tx.sig :: L.confirmedSigs,
           account := applyEffect tx.effect L.account })
    | .RejectedByLedger => (.RejectedByLedger, L)
    | .TimedOut => (.TimedOut, L)

/-- Whether a client-core call failed with a typed error. -/
def isFailure {α : Type} : Except SdError α → Bool
  | .error _ => true
  | .ok _ => false

/-- Classification of a `create_account` result, as §8 states it: either
an Active account with at least the requested capacity whose creation
transaction reached terminal confirmation, or a classified error
(`Rejected` surfaced as `AccountCreationFailed`, or a timeout). -/
def createOutcomeOk (sizeBytes : Nat) (outcome : LedgerOutcome) :
    Except SdError StorageAccount → Prop
  | .ok a => a.status = .Active ∧ sizeBytes ≤ a.capacity ∧ outcome = .Confirmed
  | .error e => e = .AccountCreationFailed ∨ e = .Timeout

/-- The per-file result list of a fully successful batch upload. -/
def allOkResults (accountName : String) (fs : List FileRef) :
    List (FileRef × FileHandle) :=
  fs.map fun f => (f, handleOf accountName f)

/-- The per-file result list of a batch upload with individual failures:
one entry per file, registered files carrying their handle. -/
def perFileResults (accountName : String) (fs : List FileRef)
    (serverOk : FileRef → Bool) : List (FileRef × Option FileHandle) :=
  fs.map fun f => (f, if serverOk f then some (handleOf accountName f) else none)

lemma add_storage_ok_shape (a : StorageAccount) (d : Nat) (oc : LedgerOutcome)
    (a2 : StorageAccount) (h : add_storage a d oc = .ok a2) :
    a2 = { a with capacity := a.capacity + d } := by
  unfold add_storage at h
  split at h
  · exact absurd h (by simp)
  · split at h
    · exact absurd h (by simp)
    · split at h
      · exact absurd h (by simp)
      · cases oc <;> simp_all

lemma reduce_storage_ok_shape (a : StorageAccount) (d : Nat) (oc : LedgerOutcome)
    (a2 : StorageAccount) (h : reduce_storage a d oc = .ok a2) :
    a.immutable = false ∧ a2 = { a with capacity := a.capacity - d } := by
  unfold reduce_storage at h
  split at h
  · exact absurd h (by simp)
  · split at h
    · exact absurd h (by simp)
    · split at h
      · exact absurd h (by simp)
      · split at h
        · exact absurd h (by simp)
        · cases oc <;> simp_all

lemma upload_files_account (st : ClientState) (fs : List FileRef)
    (sOk : FileRef → Bool) :
    ((upload_files st fs sOk).2.account.immutable = st.account.immutable) ∧
    ((upload_files st fs sOk).2.account.capacity = st.account.capacity) ∧
    ((upload_files st fs sOk).2.account.status = st.account.status) := by
  unfold upload_files
  split
  · exact ⟨rfl, rfl, rfl⟩
  · split
    · exact ⟨rfl, rfl, rfl⟩
    · split
      · exact ⟨rfl, rfl, rfl⟩
      · split <;> exact ⟨rfl, rfl, rfl⟩

lemma delete_files_account (st : ClientState) (hs : List FileHandle) :
    (delete_files st hs).2.account = st.account := by
  unfold delete_files
  split
  · rfl
  · split <;> rfl

lemma close_account_state (st : ClientState) (oc : LedgerOutcome) :
    (close_account st oc).2 = st ∨
    ((close_account st oc).2.account.immutable = st.account.immutable ∧
     (close_account st oc).2.account.capacity = st.account.capacity ∧
     (close_account st oc).2.account.status = .Closed) := by
  unfold close_account
  split
  · exact Or.inl rfl
  · split
    · exact Or.inl rfl
    · split
      · exact Or.inl rfl
      · cases oc
        · exact Or.inr ⟨rfl, rfl, rfl⟩
        · exact Or.inl rfl
        · exact Or.inl rfl

lemma step_preserves_immutable (st : ClientState) (op : Op)
    (him : st.account.immutable = true) :
    (step st op).account.immutable = true := by
  cases op with
  | addStorageOp d oc =>
      rcases h : add_storage st.account d oc with e | a2
      · simp [step, h, him]
      · simp [step, h, add_storage_ok_shape st.account d oc a2 h, him]
  | reduceStorageOp d oc =>
      rcases h : reduce_storage st.account d oc with e | a2
      · simp [step, h, him]
      · exact absurd (reduce_storage_ok_shape st.account d oc a2 h).1 (by simp [him])
  | makeImmutableOp sw =>
      simp only [step, make_account_immutable]
      split
      · rfl
      · exact him
  | uploadOp fs sOk =>
      simpa [step, (upload_files_account st fs sOk).1] using him
  | deleteOp hs =>
      simpa [step, delete_files_account st hs] using him
  | listOp => exact him
  | getOp h => exact him
  | closeOp oc =>
      rcases close_account_state st oc with h | h
      · simpa [step, h] using him
      · simpa [step, h.1] using him

lemma step_immutable_only_path (st : ClientState) (op : Op)
    (him : (step st op).account.immutable = true) :
    st.account.immutable = true ∨ op = .makeImmutableOp true := by
  cases op with
  | addStorageOp d oc =>
      left
      rcases h : add_storage st.account d oc with e | a2
      · simpa [step, h] using him
      · have := add_storage_ok_shape st.account d oc a2 h
        simp only [step, h] at him
        simpa [this] using him
  | reduceStorageOp d oc =>
      left
      rcases h : reduce_storage st.account d oc with e | a2
      · simpa [step, h] using him
      · have := (reduce_storage_ok_shape st.account d oc a2 h).2
        simp only [step, h] at him
        simpa [this] using him
  | makeImmutableOp sw =>
      cases sw with
      | false =>
          left
          simp only [step, make_account_immutable] at him
          simpa using him
      | true => exact Or.inr rfl
  | uploadOp fs sOk =>
      left
      simpa [step, (upload_files_account st fs sOk).1] using him
  | deleteOp hs =>
      left
      simpa [step, delete_files_account st hs] using him
  | listOp => exact Or.inl him
  | getOp h => exact Or.inl him
  | closeOp oc =>
      left
      rcases close_account_state st oc with h | h
      · simpa [step, h] using him
      · simp only [step] at him
        rw [h.1] at him
        exact him

lemma step_capacity_mono_of_immutable (st : ClientState) (op : Op)
    (him : st.account.immutable = true) :
    st.account.capacity ≤ (step st op).account.capacity := by
  cases op with
  | addStorageOp d oc =>
      rcases h : add_storage st.account d oc with e | a2
      · simp [step, h]
      · simp [step, h, add_storage_ok_shape st.account d oc a2 h]
  | reduceStorageOp d oc =>
      rcases h : reduce_storage st.account d oc with e | a2
      · simp [step, h]
      · exact absurd (reduce_storage_ok_shape st.account d oc a2 h).1 (by simp [him])
  | makeImmutableOp sw =>
      simp only [step, make_account_immutable]
      split <;> simp
  | uploadOp fs sOk =>
      simp [step, (upload_files_account st fs sOk).2.1]
  | deleteOp hs =>
      simp [step, delete_files_account st hs]
  | listOp => exact le_refl _
  | getOp h => exact le_refl _
  | closeOp oc =>
      rcases close_account_state st oc with h | h
      · simp [step, h]
      · simp [step, h.2.1]

/-- A concrete immutable Active account, as produced by `immutable.py`
after `make_account_immutable(skip_warning=True)`. -/
def immutAccount : StorageAccount :=
  { name := "immut_test", capacity := 2048, used := 0,
    immutable := true, status := .Active }

/-- Client state holding `immutAccount`. -/
def immutState : ClientState := { account := immutAccount, files := [] }

/-- A concrete mutable Active account, as produced by the
`create_account("test", 2 ** 20)` call of `end_to_end.py`. -/
def activeAccount : StorageAccount :=
  { name := "test", capacity := 1048576, used := 0,
    immutable := false, status := .Active }

/-- Client state holding `activeAccount` with no files yet. -/
def activeState : ClientState := { account := activeAccount, files := [] }

/-- C1: for every valid input pair (name, sizeBytes), `create_account`
either returns an account whose status is Active with capacity at least
sizeBytes and whose creation transaction reached terminal confirmation,
or fails with a classified error (ledger rejection surfaced as
`AccountCreationFailed`, or a timeout); it never returns an account whose
creation transaction has not been confirmed. -/
theorem create_account_valid_outcome (name : String) (sizeBytes : Nat)
    (outcome : LedgerOutcome) (hn : name ≠ "") (hs : 0 < sizeBytes) :
    createOutcomeOk sizeBytes outcome (create_account name sizeBytes outcome) := by
  have hcond : ¬(name = "" ∨ sizeBytes = 0) := by
    rintro (h | h)
    · exact hn h
    · omega
  unfold create_account
  rw [if_neg hcond]
  cases outcome <;> simp [createOutcomeOk]

/-- Witness for C1 at the inputs of `end_to_end.py`: name `"test"`,
size 2 ^ 20, confirmed creation. -/
theorem create_account_valid_outcome_witness :
    ("test" ≠ "" ∧ 0 < 1048576) ∧
    createOutcomeOk 1048576 .Confirmed (create_account "test" 1048576 .Confirmed) :=
  ⟨by decide,
   create_account_valid_outcome "test" 1048576 .Confirmed (by decide) (by decide)⟩

/-- C2: on an immutable account, `reduce_storage` always fails, while
`add_storage` succeeds (under its enabling conditions: Active account,
positive delta, confirmed resize transaction) and grows the capacity;
equivalently, once `immutable = true`, no operation of the public surface
can shrink the account's capacity. -/
theorem immutable_account_storage_rules (st : ClientState) (d : Nat)
    (oc : LedgerOutcome) (op : Op) (him : st.account.immutable = true) :
    isFailure (reduce_storage st.account d oc) = true ∧
    (st.account.status = .Active → 0 < d → oc = .Confirmed →
        add_storage st.account d oc =
          .ok { st.account with capacity := st.account.capacity + d }) ∧
    st.account.capacity ≤ (step st op).account.capacity := by
  refine ⟨?_, ?_, step_capacity_mono_of_immutable st op him⟩
  · unfold reduce_storage
    split
    · rfl
    · simp [him, isFailure]
  · intro hact hd hoc
    subst hoc
    have hd0 : ¬d = 0 := by omega
    simp [add_storage, hd0, hact]

/-- Witness for C2 at the immutable account of `immutable.py`: reduction
of 2 ^ 20 bytes fails, addition of 2 ^ 10 bytes succeeds, and the
capacity does not shrink under a reduce step. -/
theorem immutable_account_storage_rules_witness :
    immutState.account.immutable = true ∧
    (isFailure (reduce_storage immutState.account 1048576 .Confirmed) = true ∧
     (immutState.account.status = .Active → 0 < 1024 →
        LedgerOutcome.Confirmed = .Confirmed →
        add_storage immutState.account 1024 .Confirmed =
          .ok { immutState.account with
                capacity := immutState.account.capacity + 1024 }) ∧
     immutState.account.capacity ≤
       (step immutState (.reduceStorageOp 1048576 .Confirmed)).account.capacity) :=
  ⟨by decide,
   immutable_account_storage_rules immutState 1024 .Confirmed
     (.reduceStorageOp 1048576 .Confirmed) (by decide)⟩

/-- C3: `make_account_immutable` with `skipWarning = false` (the declined
confirmation of the dry-warning UX) leaves the account entirely
unchanged; with `skipWarning = true` it transitions an Active account to
immutable, that transition is idempotent, and no other operation of the
public surface sets the immutable flag. -/
theorem make_immutable_paths (a : StorageAccount) (st : ClientState) (op : Op)
    (him : (step st op).account.immutable = true) :
    make_account_immutable a false = a ∧
    (a.status = .Active → (make_account_immutable a true).immutable = true) ∧
    make_account_immutable (make_account_immutable a true) true =
      make_account_immutable a true ∧
    (st.account.immutable = true ∨ op = .makeImmutableOp true) := by
  refine ⟨?_, ?_, ?_, step_immutable_only_path st op him⟩
  · simp [make_account_immutable]
  · intro h
    simp [make_account_immutable, h]
  · unfold make_account_immutable
    by_cases h : a.status = .Active <;> simp [h]

/-- Witness for C3 at the account of `immutable.py`: the declined call is
a no-op, the `skip_warning=True` call sets the flag, doing it twice
equals doing it once, and the immutabilize step is the path that set the
flag. -/
theorem make_immutable_paths_witness :
    (step activeState (.makeImmutableOp true)).account.immutable = true ∧
    (make_account_immutable activeAccount false = activeAccount ∧
     (activeAccount.status = .Active →
        (make_account_immutable activeAccount true).immutable = true) ∧
     make_account_immutable (make_account_immutable activeAccount true) true =
       make_account_immutable activeAccount true ∧
     (activeState.account.immutable = true ∨
       Op.makeImmutableOp true = .makeImmutableOp true)) :=
  ⟨by decide,
   make_immutable_paths activeAccount activeState (.makeImmutableOp true) (by decide)⟩

/-- C8: the immutability flag is monotonic — for every client state and
every operation of the public surface, if the account is immutable before
the operation, it is immutable after it. -/
theorem immutable_flag_monotonic (st : ClientState) (op : Op)
    (him : st.account.immutable = true) :
    (step st op).account.immutable = true :=
  step_preserves_immutable st op him

/-- Witness for C8: an attempted close of the immutable account of
`immutable.py` leaves the flag set. -/
theorem immutable_flag_monotonic_witness :
    immutState.account.immutable = true ∧
    (step immutState (.closeOp .Confirmed)).account.immutable = true :=
  ⟨by decide, immutable_flag_monotonic immutState (.closeOp .Confirmed) (by decide)⟩

lemma close_account_ok_closed (st : ClientState) (oc : LedgerOutcome)
    (r : Except SdError Unit) (st2 : ClientState)
    (hE : close_account st oc = (r, st2)) (h : r = .ok ()) :
    st2.account.status = .Closed := by
  subst h
  unfold close_account at hE
  split at hE
  · exact absurd hE (by simp)
  · split at hE
    · exact absurd hE (by simp)
    · split at hE
      · exact absurd hE (by simp)
      · cases oc
        · injection hE with h1 h2
          rw [← h2]
        · exact absurd hE (by simp)
        · exact absurd hE (by simp)

/-- C4: once `close_account` has succeeded, every subsequent
`upload_files` or `delete_files` call against that account fails with
`AccountClosed`. -/
theorem closed_account_refuses_file_ops (st : ClientState) (oc : LedgerOutcome)
    (fs : List FileRef) (sOk : FileRef → Bool) (hs : List FileHandle)
    (h : (close_account st oc).1 = .ok ()) :
    (upload_files (close_account st oc).2 fs sOk).1 = .failed .AccountClosed ∧
    (delete_files (close_account st oc).2 hs).1 = .error .AccountClosed := by
  have hclosed : (close_account st oc).2.account.status = .Closed := by
    rcases hE : close_account st oc with ⟨r, st2⟩
    rw [hE] at h
    exact close_account_ok_closed st oc r st2 hE h
  constructor
  · unfold upload_files
    rw [if_pos hclosed]
  · unfold delete_files
    rw [if_pos hclosed]

/-- A sample local file, as uploaded by the examples. -/
def alphaFile : FileRef := { path := "alpha.txt", size := 100 }

/-- A second sample local file, as uploaded by the examples. -/
def notAlphaFile : FileRef := { path := "not_alpha.txt", size := 200 }

/-- A storage endpoint that accepts every file of a batch. -/
def alwaysOk : FileRef → Bool := fun _ => true

/-- Witness for C4 at the account of `end_to_end.py`: after a confirmed
close, uploading or deleting is refused with `AccountClosed`. -/
theorem closed_account_refuses_file_ops_witness :
    (close_account activeState .Confirmed).1 = .ok () ∧
    ((upload_files (close_account activeState .Confirmed).2 [alphaFile] alwaysOk).1 =
        .failed .AccountClosed ∧
     (delete_files (close_account activeState .Confirmed).2
        [handleOf "test" alphaFile]).1 = .error .AccountClosed) :=
  ⟨by rfl,
   closed_account_refuses_file_ops activeState .Confirmed [alphaFile] alwaysOk
     [handleOf "test" alphaFile] (by rfl)⟩

lemma upload_files_two_ok (st : ClientState) (f1 f2 : FileRef)
    (sOk : FileRef → Bool) (hact : st.account.status = .Active)
    (hcap : st.account.used + totalSize [f1, f2] ≤ st.account.capacity)
    (h1 : sOk f1 = true) (h2 : sOk f2 = true) :
    (upload_files st [f1, f2] sOk).2.files =
      st.files ++ [handleOf st.account.name f1, handleOf st.account.name f2] := by
  unfold upload_files
  rw [if_neg (by simp [hact]), if_neg (by simp [hact]), if_neg (by omega)]
  simp [h1, h2]

/-- C5: round-trip of file operations on an Active account — after a
successful `upload_files([f1, f2])`, `list_files()` includes the handles
of both files; after a subsequent `delete_files([handle(f1)])`,
`list_files()` excludes f1's handle but still includes f2's handle. -/
theorem upload_list_delete_roundtrip (st : ClientState) (f1 f2 : FileRef)
    (sOk : FileRef → Bool) (hact : st.account.status = .Active)
    (hcap : st.account.used + totalSize [f1, f2] ≤ st.account.capacity)
    (h1 : sOk f1 = true) (h2 : sOk f2 = true)
    (hne : handleOf st.account.name f1 ≠ handleOf st.account.name f2) :
    list_files (upload_files st [f1, f2] sOk).2 =
        .ok (upload_files st [f1, f2] sOk).2.files ∧
    handleOf st.account.name f1 ∈ (upload_files st [f1, f2] sOk).2.files ∧
    handleOf st.account.name f2 ∈ (upload_files st [f1, f2] sOk).2.files ∧
    list_files (delete_files (upload_files st [f1, f2] sOk).2
          [handleOf st.account.name f1]).2 =
        .ok (delete_files (upload_files st [f1, f2] sOk).2
          [handleOf st.account.name f1]).2.files ∧
    handleOf st.account.name f1 ∉ (delete_files (upload_files st [f1, f2] sOk).2
          [handleOf st.account.name f1]).2.files ∧
    handleOf st.account.name f2 ∈ (delete_files (upload_files st [f1, f2] sOk).2
          [handleOf st.account.name f1]).2.files := by
  have hstat1 : (upload_files st [f1, f2] sOk).2.account.status = .Active := by
    rw [(upload_files_account st [f1, f2] sOk).2.2, hact]
  have hfiles := upload_files_two_ok st f1 f2 sOk hact hcap h1 h2
  have hdelfiles : (delete_files (upload_files st [f1, f2] sOk).2
      [handleOf st.account.name f1]).2.files =
      (upload_files st [f1, f2] sOk).2.files.filter
        (fun h => decide (h ∉ [handleOf st.account.name f1])) := by
    unfold delete_files
    rw [if_neg (by simp [hstat1]), if_neg (by simp [hstat1])]
  have hstat2 : (delete_files (upload_files st [f1, f2] sOk).2
      [handleOf st.account.name f1]).2.account.status = .Active := by
    rw [delete_files_account, hstat1]
  refine ⟨?_, ?_, ?_, ?_, ?_, ?_⟩
  · unfold list_files
    rw [if_neg (by simp [hstat1]), if_neg (by simp [hstat1])]
  · rw [hfiles]; simp
  · rw [hfiles]; simp
  · unfold list_files
    rw [if_neg (by simp [hstat2]), if_neg (by simp [hstat2])]
  · rw [hdelfiles]
    simp [List.mem_filter]
  · rw [hdelfiles, hfiles]
    refine List.mem_filter.mpr ⟨by simp, ?_⟩
    simp only [List.mem_singleton, decide_eq_true_eq]
    intro hcontr
    exact hne hcontr.symm

/-- Witness for C5 at the files of the examples: upload `alpha.txt` and
`not_alpha.txt`, list both, delete the first, list only the second. -/
theorem upload_list_delete_roundtrip_witness :
    (activeState.account.status = .Active ∧
     activeState.account.used + totalSize [alphaFile, notAlphaFile] ≤
       activeState.account.capacity ∧
     alwaysOk alphaFile = true ∧ alwaysOk notAlphaFile = true ∧
     handleOf activeState.account.name alphaFile ≠
       handleOf activeState.account.name notAlphaFile) ∧
    (list_files (upload_files activeState [alphaFile, notAlphaFile] alwaysOk).2 =
        .ok (upload_files activeState [alphaFile, notAlphaFile] alwaysOk).2.files ∧
     handleOf activeState.account.name alphaFile ∈
       (upload_files activeState [alphaFile, notAlphaFile] alwaysOk).2.files ∧
     handleOf activeState.account.name notAlphaFile ∈
       (upload_files activeState [alphaFile, notAlphaFile] alwaysOk).2.files ∧
     list_files (delete_files (upload_files activeState [alphaFile, notAlphaFile] alwaysOk).2
          [handleOf activeState.account.name alphaFile]).2 =
        .ok (delete_files (upload_files activeState [alphaFile, notAlphaFile] alwaysOk).2
          [handleOf activeState.account.name alphaFile]).2.files ∧
     handleOf activeState.account.name alphaFile ∉
       (delete_files (upload_files activeState [alphaFile, notAlphaFile] alwaysOk).2
          [handleOf activeState.account.name alphaFile]).2.files ∧
     handleOf activeState.account.name notAlphaFile ∈
       (delete_files (upload_files activeState [alphaFile, notAlphaFile] alwaysOk).2
          [handleOf activeState.account.name alphaFile]).2.files) :=
  ⟨⟨by decide, by decide, by decide, by decide, by decide⟩,
   upload_list_delete_roundtrip activeState alphaFile notAlphaFile alwaysOk
     (by decide) (by decide) (by decide) (by decide) (by decide)⟩

/-- C6: `signRawMessage` is deterministic — two invocations with the same
keypair and message bytes, under arbitrary ambient invocation states,
produce identical signatures, and the produced signature verifies against
`publicIdentifierOf(keypair)`. -/
theorem sign_raw_message_deterministic (kp : Keypair) (msg : List Nat)
    (e1 e2 : Nat) :
    signRawMessage kp msg e1 = signRawMessage kp msg e2 ∧
    verifySignature (publicIdentifierOf kp) msg (signRawMessage kp msg e1) = true := by
  constructor
  · rfl
  · simp [verifySignature, signRawMessage, publicIdentifierOf]

/-- C7: batch upload never partially applies — against an Active account
with insufficient remaining capacity the whole call fails with
`CapacityExceeded` and the state is returned unchanged; with sufficient
capacity the caller receives a per-file result list (one entry per file
of the batch): `allOk` when every file registered, and mixed outcomes
surfaced through the `PartialUploadFailure`-carrying `mixed`
constructor. -/
theorem upload_batch_all_or_nothing (st : ClientState) (fs : List FileRef)
    (sOk : FileRef → Bool) (hact : st.account.status = .Active) :
    (st.account.capacity < st.account.used + totalSize fs →
        upload_files st fs sOk = (.failed .CapacityExceeded, st)) ∧
    (st.account.used + totalSize fs ≤ st.account.capacity →
        (fs.all sOk = true →
            (upload_files st fs sOk).1 = .allOk (allOkResults st.account.name fs)) ∧
        (fs.all sOk = false →
            (upload_files st fs sOk).1 =
              .mixed (perFileResults st.account.name fs sOk)) ∧
        (perFileResults st.account.name fs sOk).length = fs.length ∧
        (allOkResults st.account.name fs).length = fs.length) := by
  constructor
  · intro hover
    unfold upload_files
    rw [if_neg (by simp [hact]), if_neg (by simp [hact]), if_pos hover]
  · intro hcap
    refine ⟨?_, ?_, by simp [perFileResults], by simp [allOkResults]⟩
    · intro hall
      unfold upload_files
      rw [if_neg (by simp [hact]), if_neg (by simp [hact]), if_neg (by omega),
        if_pos hall]
      rfl
    · intro hmixed
      unfold upload_files
      rw [if_neg (by simp [hact]), if_neg (by simp [hact]), if_neg (by omega),
        if_neg (by simp [hmixed])]
      rfl

/-- A storage endpoint that accepts exactly the files named `alpha.txt`,
producing a mixed batch outcome on the example pair. -/
def alphaOnlyOk : FileRef → Bool := fun f => f.path = "alpha.txt"

/-- Witness for C7 on the example batch: a 2 ^ 21-byte batch against the
2 ^ 20-byte account fails whole with `CapacityExceeded`; the in-capacity
batch yields a per-file result list of matching length, mixed when the
endpoint rejects one file. -/
theorem upload_batch_all_or_nothing_witness :
    activeState.account.status = .Active ∧
    ((activeState.account.capacity <
        activeState.account.used + totalSize [alphaFile, notAlphaFile] →
        upload_files activeState [alphaFile, notAlphaFile] alphaOnlyOk =
          (.failed .CapacityExceeded, activeState)) ∧
     (activeState.account.used + totalSize [alphaFile, notAlphaFile] ≤
        activeState.account.capacity →
        ([alphaFile, notAlphaFile].all alphaOnlyOk = true →
            (upload_files activeState [alphaFile, notAlphaFile] alphaOnlyOk).1 =
              .allOk (allOkResults activeState.account.name [alphaFile, notAlphaFile])) ∧
        ([alphaFile, notAlphaFile].all alphaOnlyOk = false →
            (upload_files activeState [alphaFile, notAlphaFile] alphaOnlyOk).1 =
              .mixed (perFileResults activeState.account.name
                [alphaFile, notAlphaFile] alphaOnlyOk)) ∧
        (perFileResults activeState.account.name
            [alphaFile, notAlphaFile] alphaOnlyOk).length =
          [alphaFile, notAlphaFile].length ∧
        (allOkResults activeState.account.name [alphaFile, notAlphaFile]).length =
          [alphaFile, notAlphaFile].length)) :=
  ⟨by decide,
   upload_batch_all_or_nothing activeState [alphaFile, notAlphaFile] alphaOnlyOk
     (by decide)⟩

lemma submit_confirmed_noop (L : LedgerState) (tx : SignedTx)
    (oc : LedgerOutcome) (h : tx.sig ∈ L.confirmedSigs) :
    submit L tx oc = (.Confirmed, L) := by
  unfold submit
  rw [if_pos h]

/-- C9: LedgerClient submission is idempotent with respect to confirmed
transactions — re-submitting a transaction whose signature is already
confirmed returns the receipt without applying the account-state effect
again, and after a first confirmed submission any re-submission leaves
the ledger state (and hence the account state) exactly as after the
single application. -/
theorem submit_idempotent (L : LedgerState) (tx : SignedTx)
    (oc oc2 : LedgerOutcome) (h : tx.sig ∈ L.confirmedSigs) :
    submit L tx oc = (.Confirmed, L) ∧
    (submit (submit L tx .Confirmed).2 tx oc2).2 = (submit L tx .Confirmed).2 := by
  refine ⟨submit_confirmed_noop L tx oc h, ?_⟩
  have hmem : tx.sig ∈ (submit L tx .Confirmed).2.confirmedSigs := by
    unfold submit
    by_cases hm : tx.sig ∈ L.confirmedSigs
    · rw [if_pos hm]
      exact hm
    · rw [if_neg hm]
      exact List.mem_cons_self _ _
  rw [submit_confirmed_noop _ tx oc2 hmem]

/-- A ledger that has already confirmed one resize transaction. -/
def confirmedLedger : LedgerState :=
  { confirmedSigs := [[1, 2, 3]], account := activeAccount }

/-- The resize transaction `confirmedLedger` has confirmed. -/
def resizeTx : SignedTx := { sig := [1, 2, 3], effect := .resizeAdd 1024 }

/-- Witness for C9: re-submitting the already-confirmed resize
transaction changes nothing, under either re-submission outcome. -/
theorem submit_idempotent_witness :
    resizeTx.sig ∈ confirmedLedger.confirmedSigs ∧
    (submit confirmedLedger resizeTx .Confirmed = (.Confirmed, confirmedLedger) ∧
     (submit (submit confirmedLedger resizeTx .Confirmed).2 resizeTx .TimedOut).2 =
       (submit confirmedLedger resizeTx .Confirmed).2) :=
  ⟨by decide,
   submit_idempotent confirmedLedger resizeTx .Confirmed .TimedOut (by decide)⟩

lemma map_mod_id (l : List Nat) (h : l.all (fun b => b < 256) = true) :
    l.map (· % 256) = l := by
  induction l with
  | nil => rfl
  | cons b bs ih =>
      simp only [List.all_cons, Bool.and_eq_true, decide_eq_true_eq] at h
      simp only [List.map_cons]
      rw [Nat.mod_eq_of_lt h.1, ih h.2]

/-- C10: the python utility functions agree with the inner keypair
handling — `print_pubkey(keypair)` equals the string form of
`keypair.pubkey()`, and for a message given as a list of byte-valued
ints, `sign_message(keypair, msg)` equals the string form of
`keypair.sign_message(msg bytes)`. -/
theorem python_utils_match_inner (kp : Keypair) (msg : List Nat)
    (hb : msg.all (fun b => b < 256) = true) :
    print_pubkey kp = encodeBytes (Keypair.pubkey kp) ∧
    sign_message kp msg = encodeBytes (Keypair.sign_message kp msg) := by
  constructor
  · rfl
  · unfold sign_message
    rw [map_mod_id msg hb]

/-- A concrete keypair standing in for `Keypair()` in the test. -/
def testKeypair : Keypair := { secret := List.replicate 32 1 }

/-- Witness for C10 at the test's message `b"1" * 32` (32 bytes of value
49). -/
theorem python_utils_match_inner_witness :
    (List.replicate 32 49).all (fun b => b < 256) = true ∧
    (print_pubkey testKeypair = encodeBytes (Keypair.pubkey testKeypair) ∧
     sign_message testKeypair (List.replicate 32 49) =
       encodeBytes (Keypair.sign_message testKeypair (List.replicate 32 49))) :=
  ⟨by decide,
   python_utils_match_inner testKeypair (List.replicate 32 49) (by decide)⟩

end ShadowDrive
